import Mathlib

/-!
Shallow embedding of the clippy lint `same_length_and_capacity`
(`clippy_lints/src/same_length_and_capacity.rs`).

The lint pass `SameLengthAndCapacity` inspects one HIR call expression at a
time.  When the callee is a type-relative path `Ty::from_raw_parts`, the
written type resolves to `Vec` (diagnostic item) or `String` (lang item), and
the second and third arguments are equal under `SpanlessEq`, it emits one
diagnostic through `span_lint_and_help` at the span of the whole call.

The expression language, the type-identity oracles and the structural
equality comparator `SpanlessEq::eq_expr` live in `rustc_hir` / `clippy_utils`
and are not part of this repository snapshot; they are modelled from the
specification.  The function `check_expr` itself is translated directly from
the source.  Array indexing `args[1]` / `args[2]` in the source can panic, so
the embedding is total: `check_expr` returns `Except String (List Diagnostic)`
where the `error` outcome marks an out-of-bounds index panic and the `ok`
outcome carries the list of emitted diagnostics.
-/

/-- Modelled from the spec: result of the type-identity oracle
`classify(type) -> DynamicArrayType | TextBufferType | Other`. -/
inductive TypeClass where
  | dynamicArray
  | textBuffer
  | other (id : Nat)
  deriving DecidableEq

/-- Modelled from the spec: a resolved nominal type as seen by the oracle.
`hirId` stands for the HIR node id of the written type; `typeClass` is the
classification the oracle hands back for `node_type(ty.hir_id)`. -/
structure Ty where
  hirId : Nat
  typeClass : TypeClass
  deriving DecidableEq

/-- Modelled from the spec: literal values, compared by value. -/
inductive Lit where
  | int (n : Int)
  | str (s : String)
  | bool (b : Bool)
  deriving DecidableEq

/-- Modelled from the spec: binary arithmetic operators. -/
inductive BinOp where
  | add
  | sub
  | mul
  | div
  | rem
  deriving DecidableEq

/-- Modelled from the spec: a generic IR expression node with a kind tag,
children and a source span.  The kinds cover what the lint and the
structural-equality contract mention: calls with a callee and an ordered
argument list, type-relative paths (`Ty::method`), identifiers carrying the
id of their bound declaration, literals, field access, indexing, method
calls, binary arithmetic, parenthesised grouping, and a catch-all
`unrecognized` kind for every expression form the comparator does not
specifically recognize. -/
inductive Expr where
  | call (span : Nat) (callee : Expr) (args : List Expr)
  | pathTypeRel (span : Nat) (ty : Ty) (fnName : String)
  | ident (span : Nat) (bindingId : Nat) (name : String)
  | lit (span : Nat) (value : Lit)
  | field (span : Nat) (base : Expr) (fieldName : String)
  | index (span : Nat) (base : Expr) (idx : Expr)
  | methodCall (span : Nat) (methodName : String) (receiver : Expr) (args : List Expr)
  | binary (span : Nat) (op : BinOp) (lhs : Expr) (rhs : Expr)
  | paren (span : Nat) (inner : Expr)
  | unrecognized (span : Nat) (tag : Nat)

/-- Source span of an expression node. -/
def Expr.span : Expr → Nat
  | .call s _ _ => s
  | .pathTypeRel s _ _ => s
  | .ident s _ _ => s
  | .lit s _ => s
  | .field s _ _ => s
  | .index s _ _ => s
  | .methodCall s _ _ _ => s
  | .binary s _ _ _ => s
  | .paren s _ => s
  | .unrecognized s _ => s

/-- Modelled from the spec: parenthesization is transparent to the
comparator, so outer grouping nodes are stripped before comparing kinds. -/
def stripParen : Expr → Expr
  | .paren _ e => stripParen e
  | e => e

mutual

/-- Modelled from the spec: the structural-equality oracle
`SpanlessEq::eq_expr` of the host utility layer.  Identifiers compare by
bound declaration (not surface name), literals compare by value, compound
expressions (field access, indexing, method access, binary arithmetic)
compare recursively on base and selector or operands, grouping is
transparent on either side, and any kind the comparator does not
specifically recognize compares as not equal, never as equal. -/
def eq_expr : Expr → Expr → Bool
  | .paren _ a, b => eq_expr a b
  | .ident _ ia _, b =>
    match stripParen b with
    | .ident _ ib _ => decide (ia = ib)
    | _ => false
  | .lit _ va, b =>
    match stripParen b with
    | .lit _ vb => decide (va = vb)
    | _ => false
  | .field _ ba fa, b =>
    match stripParen b with
    | .field _ bb fb => decide (fa = fb) && eq_expr ba bb
    | _ => false
  | .index _ ba ia, b =>
    match stripParen b with
    | .index _ bb ib => eq_expr ba bb && eq_expr ia ib
    | _ => false
  | .methodCall _ na ra aas, b =>
    match stripParen b with
    | .methodCall _ nb rb bas => decide (na = nb) && eq_expr ra rb && eq_exprs aas bas
    | _ => false
  | .binary _ oa la ra, b =>
    match stripParen b with
    | .binary _ ob lb rb => decide (oa = ob) && eq_expr la lb && eq_expr ra rb
    | _ => false
  | .call _ _ _, _ => false
  | .pathTypeRel _ _ _, _ => false
  | .unrecognized _ _, _ => false

/-- Modelled from the spec: pointwise structural equality of two ordered
argument lists, used for the arguments of compared method calls. -/
def eq_exprs : List Expr → List Expr → Bool
  | [], [] => true
  | a :: as, b :: bs => eq_expr a b && eq_exprs as bs
  | _, _ => false

end

/-- Modelled from the spec: the type-identity oracle
`is_type_diagnostic_item(cx, ty, sym::Vec)`, true exactly when the oracle
classifies the type as the dynamic-array type. -/
def is_type_diagnostic_item (t : Ty) : Bool :=
  decide (t.typeClass = TypeClass.dynamicArray)

/-- Modelled from the spec: the type-identity oracle
`is_type_lang_item(cx, ty, LangItem::String)`, true exactly when the oracle
classifies the type as the text-buffer type. -/
def is_type_lang_item (t : Ty) : Bool :=
  decide (t.typeClass = TypeClass.textBuffer)

/-- Method selector `sym::from_raw_parts` used by both recognized types. -/
def from_raw_parts_name : String := "from_raw_parts"

/-- One diagnostic as produced by `span_lint_and_help`: the span it points
at, the lint message and the help text. -/
structure Diagnostic where
  span : Nat
  message : String
  help : String
  deriving DecidableEq

def vecMessage : String :=
  "usage of `Vec::from_raw_parts` with the same expression for length and capacity"

def vecHelp : String :=
  "if the length and capacity are the same, you most likely went through a boxed slice; consider reconstructing the `Vec` using a `Box` instead, e.g. `Box::from(slice::from_raw_parts(...)).into_vec()`"

def stringMessage : String :=
  "usage of `String::from_raw_parts` with the same expression for length and capacity"

def stringHelp : String :=
  "if the length and capacity are the same, you most likely went through a boxed `str`; consider reconstructing the `String` using `String::from` instead, e.g. `String::from(str::from_utf8_unchecked(slice::from_raw_parts(...)))`"

/-- Message of the panic raised by an out-of-bounds slice index. -/
def indexOutOfBoundsMsg : String := "index out of bounds"

/-- Conditions of one `if let` branch of `check_expr`, evaluated in source
order with short-circuiting: the expression is a call, its callee is a
type-relative path, the written type satisfies the type test `isTy`, the
method selector is `from_raw_parts`, and finally `args[1]` and `args[2]` are
compared with `eq_expr`.  The source indexes the argument slice without a
length check, so the indexing is embedded totally: `none` is the panic of an
out-of-bounds index, `some c` says the branch condition evaluated to `c`. -/
def matchFromRawParts (isTy : Ty → Bool) (expr : Expr) : Option Bool :=
  match expr with
  | .call _ (.pathTypeRel _ ty fnName) args =>
    if isTy ty then
      if fnName = from_raw_parts_name then
        match args[1]?, args[2]? with
        | some len, some cap => some (eq_expr len cap)
        | _, _ => none
      else some false
    else some false
  | _ => some false

/-- Translation of `SameLengthAndCapacity::check_expr`: the first branch
tests the call against `Vec::from_raw_parts` via the diagnostic-item oracle
and emits the `Vec` diagnostic at the span of the whole call expression; the
`else if` branch re-matches the same expression against
`String::from_raw_parts` via the lang-item oracle and emits the `String`
diagnostic; otherwise nothing is emitted.  An out-of-bounds argument index
inside a branch condition is the `error` outcome. -/
def check_expr (expr : Expr) : Except String (List Diagnostic) :=
  match matchFromRawParts is_type_diagnostic_item expr with
  | none => Except.error indexOutOfBoundsMsg
  | some true => Except.ok [⟨expr.span, vecMessage, vecHelp⟩]
  | some false =>
    match matchFromRawParts is_type_lang_item expr with
    | none => Except.error indexOutOfBoundsMsg
    | some true => Except.ok [⟨expr.span, stringMessage, stringHelp⟩]
    | some false => Except.ok []

/-- Diagnostics visible to the driver after one invocation: the emitted list
on a normal return, nothing when the invocation panicked. -/
def emittedDiags : Except String (List Diagnostic) → List Diagnostic
  | .ok ds => ds
  | .error _ => []

mutual

/-- Modelled from the spec: an expression is built only from kinds the
comparator specifically recognizes (identifiers, literals, field access,
indexing, method access, binary arithmetic, grouping).  Plain calls,
type-relative paths and the catch-all kind are not recognized by the
comparator and default to a not-equal verdict. -/
def recognizedExpr : Expr → Bool
  | .ident _ _ _ => true
  | .lit _ _ => true
  | .field _ b _ => recognizedExpr b
  | .index _ b i => recognizedExpr b && recognizedExpr i
  | .methodCall _ _ r args => recognizedExpr r && recognizedExprs args
  | .binary _ _ l r => recognizedExpr l && recognizedExpr r
  | .paren _ e => recognizedExpr e
  | .call _ _ _ => false
  | .pathTypeRel _ _ _ => false
  | .unrecognized _ _ => false

/-- All expressions of a list are built from recognized kinds. -/
def recognizedExprs : List Expr → Bool
  | [] => true
  | e :: es => recognizedExpr e && recognizedExprs es

end

/-- Modelled from the spec: the host guarantees the visited HIR is fully
type-checked, so a call whose callee is a type-relative `from_raw_parts`
path on one of the two recognized buffer types necessarily resolved to the
real three-parameter constructor and carries exactly three arguments. -/
def wellTypedArity (e : Expr) : Prop :=
  ∀ sp psp ty fn args, e = Expr.call sp (Expr.pathTypeRel psp ty fn) args →
    (is_type_diagnostic_item ty = true ∨ is_type_lang_item ty = true) →
    fn = from_raw_parts_name → args.length = 3

/-- The lint pass struct declared by
`declare_lint_pass!(SameLengthAndCapacity => [SAME_LENGTH_AND_CAPACITY])`:
it has no fields, so the pass carries no state. -/
structure SameLengthAndCapacity where

/-- One invocation of the pass as the driver sees it: `check_expr` takes the
pass by mutable reference and returns nothing, so the embedding threads the
(field-less) pass value through and pairs it with the outcome. -/
def checkExprPass (pass : SameLengthAndCapacity) (expr : Expr) :
    SameLengthAndCapacity × Except String (List Diagnostic) :=
  (pass, check_expr expr)

/-- The driver visiting a list of call nodes in order, threading the pass
state through the invocations and collecting each outcome. -/
def runPass (pass : SameLengthAndCapacity) :
    List Expr → SameLengthAndCapacity × List (Except String (List Diagnostic))
  | [] => (pass, [])
  | e :: es =>
    match checkExprPass pass e with
    | (pass1, r) =>
      match runPass pass1 es with
      | (pass2, rs) => (pass2, r :: rs)

/-- Stripping grouping never yields a grouping node. -/
theorem stripParen_ne_paren : (b : Expr) → ∀ s e, stripParen b ≠ Expr.paren s e
  | .paren _ b => fun s e => by
      rw [show stripParen (Expr.paren _ b) = stripParen b from rfl]
      exact stripParen_ne_paren b s e
  | .call _ _ _ => fun _ _ => by simp [stripParen]
  | .pathTypeRel _ _ _ => fun _ _ => by simp [stripParen]
  | .ident _ _ _ => fun _ _ => by simp [stripParen]
  | .lit _ _ => fun _ _ => by simp [stripParen]
  | .field _ _ _ => fun _ _ => by simp [stripParen]
  | .index _ _ _ => fun _ _ => by simp [stripParen]
  | .methodCall _ _ _ _ => fun _ _ => by simp [stripParen]
  | .binary _ _ _ _ => fun _ _ => by simp [stripParen]
  | .unrecognized _ _ => fun _ _ => by simp [stripParen]

/-- Comparison only depends on the first argument through its stripped form. -/
theorem eq_expr_strip_left : (b : Expr) → ∀ x, eq_expr b x = eq_expr (stripParen b) x
  | .paren _ b => fun x => by
      rw [show eq_expr (Expr.paren _ b) x = eq_expr b x from rfl,
          show stripParen (Expr.paren _ b) = stripParen b from rfl]
      exact eq_expr_strip_left b x
  | .call _ _ _ => fun _ => rfl
  | .pathTypeRel _ _ _ => fun _ => rfl
  | .ident _ _ _ => fun _ => rfl
  | .lit _ _ => fun _ => rfl
  | .field _ _ _ => fun _ => rfl
  | .index _ _ _ => fun _ => rfl
  | .methodCall _ _ _ _ => fun _ => rfl
  | .binary _ _ _ _ => fun _ => rfl
  | .unrecognized _ _ => fun _ => rfl

/-- Grouping on the right-hand side is transparent to the comparator. -/
theorem eq_expr_paren_right : (b : Expr) → ∀ s a, eq_expr b (Expr.paren s a) = eq_expr b a
  | .paren _ b => fun s a => by
      rw [show eq_expr (Expr.paren _ b) (Expr.paren s a) = eq_expr b (Expr.paren s a) from rfl,
          eq_expr_paren_right b s a]
      rfl
  | .call _ _ _ => fun _ _ => rfl
  | .pathTypeRel _ _ _ => fun _ _ => rfl
  | .ident _ _ _ => fun _ _ => rfl
  | .lit _ _ => fun _ _ => rfl
  | .field _ _ _ => fun _ _ => rfl
  | .index _ _ _ => fun _ _ => rfl
  | .methodCall _ _ _ _ => fun _ _ => rfl
  | .binary _ _ _ _ => fun _ _ => rfl
  | .unrecognized _ _ => fun _ _ => rfl

/-- C9: the structural-equality predicate used for the length/capacity
comparison is symmetric: `eq_expr a b = eq_expr b a` for every pair of
expressions. -/
theorem eq_expr_symm (a b : Expr) : eq_expr a b = eq_expr b a := by
  induction a, b using eq_expr.induct
  case motive_2 as bs => exact eq_exprs as bs = eq_exprs bs as
  case case1 sp a b ih =>
    rw [show eq_expr (Expr.paren sp a) b = eq_expr a b from rfl, eq_expr_paren_right b sp a]
    exact ih
  case case2 spa ia na b spb ib nb hb =>
    rw [eq_expr_strip_left b (Expr.ident spa ia na), hb]
    simp only [eq_expr, stripParen, hb]
    exact decide_eq_decide.mpr eq_comm
  case case3 spa ia na b hb =>
    rw [eq_expr_strip_left b (Expr.ident spa ia na)]
    cases hsb : stripParen b <;>
      first
        | exact absurd hsb (stripParen_ne_paren b _ _)
        | exact absurd hsb (hb _ _ _)
        | simp only [eq_expr, stripParen, hsb]
  case case4 spa va b spb vb hb =>
    rw [eq_expr_strip_left b (Expr.lit spa va), hb]
    simp only [eq_expr, stripParen, hb]
    exact decide_eq_decide.mpr eq_comm
  case case5 spa va b hb =>
    rw [eq_expr_strip_left b (Expr.lit spa va)]
    cases hsb : stripParen b <;>
      first
        | exact absurd hsb (stripParen_ne_paren b _ _)
        | exact absurd hsb (hb _ _)
        | simp only [eq_expr, stripParen, hsb]
  case case6 spa ba fa b spb bb fb hb ih =>
    rw [eq_expr_strip_left b (Expr.field spa ba fa), hb]
    simp only [eq_expr, stripParen, hb]
    rw [show (decide (fa = fb)) = (decide (fb = fa)) from decide_eq_decide.mpr eq_comm, ih]
  case case7 spa ba fa b hb =>
    rw [eq_expr_strip_left b (Expr.field spa ba fa)]
    cases hsb : stripParen b <;>
      first
        | exact absurd hsb (stripParen_ne_paren b _ _)
        | exact absurd hsb (hb _ _ _)
        | simp only [eq_expr, stripParen, hsb]
  case case8 spa ba ia b spb bb ib hb ih2 ih1 =>
    rw [eq_expr_strip_left b (Expr.index spa ba ia), hb]
    simp only [eq_expr, stripParen, hb]
    rw [ih2, ih1]
  case case9 spa ba ia b hb =>
    rw [eq_expr_strip_left b (Expr.index spa ba ia)]
    cases hsb : stripParen b <;>
      first
        | exact absurd hsb (stripParen_ne_paren b _ _)
        | exact absurd hsb (hb _ _ _)
        | simp only [eq_expr, stripParen, hsb]
  case case10 spa na ra aas b spb nb rb bas hb ih2 ih1 =>
    rw [eq_expr_strip_left b (Expr.methodCall spa na ra aas), hb]
    simp only [eq_expr, stripParen, hb]
    rw [show (decide (na = nb)) = (decide (nb = na)) from decide_eq_decide.mpr eq_comm, ih2, ih1]
  case case11 spa na ra aas b hb =>
    rw [eq_expr_strip_left b (Expr.methodCall spa na ra aas)]
    cases hsb : stripParen b <;>
      first
        | exact absurd hsb (stripParen_ne_paren b _ _)
        | exact absurd hsb (hb _ _ _ _)
        | simp only [eq_expr, stripParen, hsb]
  case case12 spa oa la ra b spb ob lb rb hb ih2 ih1 =>
    rw [eq_expr_strip_left b (Expr.binary spa oa la ra), hb]
    simp only [eq_expr, stripParen, hb]
    rw [show (decide (oa = ob)) = (decide (ob = oa)) from decide_eq_decide.mpr eq_comm, ih2, ih1]
  case case13 spa oa la ra b hb =>
    rw [eq_expr_strip_left b (Expr.binary spa oa la ra)]
    cases hsb : stripParen b <;>
      first
        | exact absurd hsb (stripParen_ne_paren b _ _)
        | exact absurd hsb (hb _ _ _ _)
        | simp only [eq_expr, stripParen, hsb]
  case case14 sp cal args x =>
    rw [eq_expr_strip_left x (Expr.call sp cal args)]
    cases hsx : stripParen x <;>
      first
        | exact absurd hsx (stripParen_ne_paren x _ _)
        | simp only [eq_expr, stripParen, hsx]
  case case15 sp ty fn x =>
    rw [eq_expr_strip_left x (Expr.pathTypeRel sp ty fn)]
    cases hsx : stripParen x <;>
      first
        | exact absurd hsx (stripParen_ne_paren x _ _)
        | simp only [eq_expr, stripParen, hsx]
  case case16 sp tag x =>
    rw [eq_expr_strip_left x (Expr.unrecognized sp tag)]
    cases hsx : stripParen x <;>
      first
        | exact absurd hsx (stripParen_ne_paren x _ _)
        | simp only [eq_expr, stripParen, hsx]
  case case17 => rfl
  case case18 x xs y ys ih2 ih1 =>
    simp only [eq_exprs]
    rw [ih2, ih1]
  case case19 xs ys h1 h2 =>
    match xs, ys with
    | [], [] => exact absurd rfl (h1 rfl)
    | [], y :: ys => rfl
    | x :: xs, [] => rfl
    | x :: xs, y :: ys => exact absurd rfl (h2 x xs y ys rfl)

/-- C8 (amended): the comparator is reflexive on every expression built only
from recognized kinds; on unrecognized kinds it conservatively judges an
expression not even equal to itself. -/
theorem eq_expr_refl_on_recognized (e : Expr) (h : recognizedExpr e = true) :
    eq_expr e e = true := by
  induction e using recognizedExpr.induct
  case motive_2 es => exact recognizedExprs es = true → eq_exprs es es = true
  case case1 sp i n => simp [eq_expr, stripParen]
  case case2 sp v => simp [eq_expr, stripParen]
  case case3 sp b f ih =>
    simp only [recognizedExpr] at h
    simp only [eq_expr, stripParen]
    rw [ih h]
    simp
  case case4 sp b i ih1 ih2 =>
    simp only [recognizedExpr, Bool.and_eq_true] at h
    simp only [eq_expr, stripParen]
    rw [ih1 h.1, ih2 h.2]
    simp
  case case5 sp n r args ih1 ih2 =>
    simp only [recognizedExpr, Bool.and_eq_true] at h
    simp only [eq_expr, stripParen]
    rw [ih1 h.1, ih2 h.2]
    simp
  case case6 sp o l r ih1 ih2 =>
    simp only [recognizedExpr, Bool.and_eq_true] at h
    simp only [eq_expr, stripParen]
    rw [ih1 h.1, ih2 h.2]
    simp
  case case7 sp x ih =>
    rw [show eq_expr (Expr.paren sp x) (Expr.paren sp x) = eq_expr x (Expr.paren sp x) from rfl,
        eq_expr_paren_right x sp x]
    exact ih (by simpa [recognizedExpr] using h)
  case case8 sp cal args => simp [recognizedExpr] at h
  case case9 sp ty fn => simp [recognizedExpr] at h
  case case10 sp tag => simp [recognizedExpr] at h
  case case11 => intro _; rfl
  case case12 x xs ih1 ih2 =>
    intro hx
    simp only [recognizedExprs, Bool.and_eq_true] at hx
    simp only [eq_exprs]
    rw [ih1 hx.1, ih2 hx.2]
    simp

/-- Inversion: a branch condition only evaluates to true when the call has
the full matched shape, the type test passed, the selector is
`from_raw_parts`, and the two indexed arguments exist and compare equal. -/
theorem matchFromRawParts_some_true_inv (isTy : Ty → Bool) (e : Expr)
    (h : matchFromRawParts isTy e = some true) :
    ∃ sp psp ty fn args len cap,
      e = Expr.call sp (Expr.pathTypeRel psp ty fn) args ∧ isTy ty = true ∧
        fn = from_raw_parts_name ∧ args[1]? = some len ∧ args[2]? = some cap ∧
        eq_expr len cap = true := by
  unfold matchFromRawParts at h
  split at h
  · rename_i sp psp ty fn args
    split at h
    · rename_i hty
      split at h
      · rename_i hfn
        split at h
        · rename_i len cap hlen hcap
          exact ⟨sp, psp, ty, fn, args, len, cap, rfl, hty, hfn, hlen, hcap, by simpa using h⟩
        · simp at h
      · simp at h
    · simp at h
  · simp at h

/-- Inversion: a branch condition only panics when the call has the matched
shape, the type test passed, the selector is `from_raw_parts`, and the
argument list is too short for the indices `1` and `2`. -/
theorem matchFromRawParts_none_inv (isTy : Ty → Bool) (e : Expr)
    (h : matchFromRawParts isTy e = none) :
    ∃ sp psp ty fn args,
      e = Expr.call sp (Expr.pathTypeRel psp ty fn) args ∧ isTy ty = true ∧
        fn = from_raw_parts_name ∧ args.length < 3 := by
  unfold matchFromRawParts at h
  split at h
  · rename_i sp psp ty fn args
    split at h
    · rename_i hty
      split at h
      · rename_i hfn
        split at h
        · simp at h
        · rename_i hnotboth
          refine ⟨sp, psp, ty, fn, args, rfl, hty, hfn, ?_⟩
          by_contra hlen
          push_neg at hlen
          exact hnotboth (args.get ⟨1, by omega⟩) (args.get ⟨2, by omega⟩)
            (by rw [List.getElem?_eq_getElem (by omega)]; simp [List.get_eq_getElem])
            (by rw [List.getElem?_eq_getElem (by omega)]; simp [List.get_eq_getElem])
      · simp at h
    · simp at h
  · simp at h

/-- A branch condition never evaluates to true on a call with fewer than
three arguments, since the lookup of `args[2]` cannot succeed there. -/
theorem matchFromRawParts_not_true_of_short (isTy : Ty → Bool) (sp : Nat) (cal : Expr)
    (args : List Expr) (h : args.length < 3) :
    matchFromRawParts isTy (Expr.call sp cal args) ≠ some true := by
  intro hm
  obtain ⟨sp2, psp, ty, fn, args2, len, cap, he, _, _, _, hcap, _⟩ :=
    matchFromRawParts_some_true_inv isTy _ hm
  injection he with h1 h2 h3
  subst h3
  rw [List.getElem?_eq_none (by omega)] at hcap
  exact Option.noConfusion hcap

/-- C1: every call of the form `Ctor::from_raw_parts(p, e, e)` where the
written type resolves to the dynamic-array type (`Vec`) or the text-buffer
type (`String`) and the second and third arguments are structurally equal
is flagged: `check_expr` emits a diagnostic. -/
theorem from_raw_parts_same_flagged (sp psp : Nat) (ty : Ty) (fn : String) (p len cap : Expr)
    (hty : is_type_diagnostic_item ty = true ∨ is_type_lang_item ty = true)
    (hfn : fn = from_raw_parts_name) (heq : eq_expr len cap = true) :
    ∃ d : Diagnostic,
      check_expr (Expr.call sp (Expr.pathTypeRel psp ty fn) [p, len, cap]) =
        Except.ok [d] := by
  subst hfn
  obtain ⟨tid, tc⟩ := ty
  cases tc with
  | dynamicArray =>
    refine ⟨⟨sp, vecMessage, vecHelp⟩, ?_⟩
    simp [check_expr, matchFromRawParts, is_type_diagnostic_item, heq, Expr.span]
  | textBuffer =>
    refine ⟨⟨sp, stringMessage, stringHelp⟩, ?_⟩
    simp [check_expr, matchFromRawParts, is_type_diagnostic_item, is_type_lang_item, heq,
      Expr.span]
  | other i =>
    exact absurd hty (by simp [is_type_diagnostic_item, is_type_lang_item])

/-- C1 witness: `Vec::from_raw_parts(ptr, len, len)` is flagged. -/
theorem from_raw_parts_same_flagged_witness :
    ∃ d : Diagnostic,
      check_expr (Expr.call 0 (Expr.pathTypeRel 1 ⟨2, TypeClass.dynamicArray⟩ from_raw_parts_name)
        [Expr.ident 3 0 "ptr", Expr.ident 4 1 "len", Expr.ident 5 1 "len"]) =
        Except.ok [d] :=
  from_raw_parts_same_flagged 0 1 ⟨2, TypeClass.dynamicArray⟩ from_raw_parts_name
    (Expr.ident 3 0 "ptr") (Expr.ident 4 1 "len") (Expr.ident 5 1 "len")
    (Or.inl rfl) rfl rfl

/-- C2: a call `Ctor::from_raw_parts(p, e1, e2)` on a recognized buffer type
whose length and capacity arguments are structurally distinct is not
flagged: `check_expr` emits nothing. -/
theorem from_raw_parts_distinct_not_flagged (sp psp : Nat) (ty : Ty) (fn : String)
    (p len cap : Expr)
    (hty : is_type_diagnostic_item ty = true ∨ is_type_lang_item ty = true)
    (hfn : fn = from_raw_parts_name) (hne : eq_expr len cap = false) :
    check_expr (Expr.call sp (Expr.pathTypeRel psp ty fn) [p, len, cap]) =
      Except.ok [] := by
  subst hfn
  obtain ⟨tid, tc⟩ := ty
  cases tc <;>
    simp [check_expr, matchFromRawParts, is_type_diagnostic_item, is_type_lang_item, hne]

/-- C2 witness: `Vec::from_raw_parts(ptr, len, cap)` with `len` and `cap`
distinct bindings is not flagged. -/
theorem from_raw_parts_distinct_not_flagged_witness :
    check_expr (Expr.call 0 (Expr.pathTypeRel 1 ⟨6, TypeClass.dynamicArray⟩ from_raw_parts_name)
      [Expr.ident 3 0 "ptr", Expr.ident 4 1 "len", Expr.ident 5 2 "cap"]) =
      Except.ok [] :=
  from_raw_parts_distinct_not_flagged 0 1 ⟨6, TypeClass.dynamicArray⟩ from_raw_parts_name
    (Expr.ident 3 0 "ptr") (Expr.ident 4 1 "len") (Expr.ident 5 2 "cap")
    (Or.inl rfl) rfl rfl

/-- C5: a call whose written receiver type is classified as neither the
dynamic-array type nor the text-buffer type is never flagged, whatever the
method name and arguments are. -/
theorem other_type_not_flagged (sp psp : Nat) (ty : Ty) (fn : String) (args : List Expr)
    (h1 : is_type_diagnostic_item ty = false) (h2 : is_type_lang_item ty = false) :
    check_expr (Expr.call sp (Expr.pathTypeRel psp ty fn) args) = Except.ok [] := by
  simp [check_expr, matchFromRawParts, h1, h2]

/-- C5 witness: `OtherType::from_raw_parts(ptr, n, n)` is not flagged. -/
theorem other_type_not_flagged_witness :
    check_expr (Expr.call 0 (Expr.pathTypeRel 1 ⟨7, TypeClass.other 9⟩ from_raw_parts_name)
      [Expr.ident 3 0 "ptr", Expr.ident 4 1 "n", Expr.ident 5 1 "n"]) =
      Except.ok [] :=
  other_type_not_flagged 0 1 ⟨7, TypeClass.other 9⟩ from_raw_parts_name
    [Expr.ident 3 0 "ptr", Expr.ident 4 1 "n", Expr.ident 5 1 "n"] rfl rfl

/-- C3 counterexample: a call with four arguments (argument count not equal
to three) whose first three positions look like `Vec::from_raw_parts(ptr,
len, len)` is still flagged, because `check_expr` never tests the argument
count. -/
theorem four_arg_call_still_flagged :
    check_expr (Expr.call 10 (Expr.pathTypeRel 11 ⟨12, TypeClass.dynamicArray⟩ "from_raw_parts")
      [Expr.ident 13 0 "ptr", Expr.ident 14 1 "len", Expr.ident 15 1 "len",
        Expr.ident 16 2 "extra"]) = Except.ok [⟨10, vecMessage, vecHelp⟩] ∧
    ([Expr.ident 13 0 "ptr", Expr.ident 14 1 "len", Expr.ident 15 1 "len",
        Expr.ident 16 2 "extra"] : List Expr).length ≠ 3 :=
  ⟨rfl, by decide⟩

/-- C3 (amended): a call with fewer than three arguments is never flagged:
whichever way its branch conditions end (condition false or out-of-bounds
panic), no diagnostic is emitted.  Calls with more than three arguments are
not covered: the code never checks the argument count, so a longer argument
list whose positions 1 and 2 compare equal is still flagged. -/
theorem fewer_than_three_args_not_flagged (sp : Nat) (cal : Expr) (args : List Expr)
    (h : args.length < 3) :
    emittedDiags (check_expr (Expr.call sp cal args)) = [] := by
  cases hv : matchFromRawParts is_type_diagnostic_item (Expr.call sp cal args) with
  | none => simp [check_expr, hv, emittedDiags]
  | some c =>
    cases c with
    | true => exact absurd hv (matchFromRawParts_not_true_of_short _ sp cal args h)
    | false =>
      cases hs : matchFromRawParts is_type_lang_item (Expr.call sp cal args) with
      | none => simp [check_expr, hv, hs, emittedDiags]
      | some c2 =>
        cases c2 with
        | true => exact absurd hs (matchFromRawParts_not_true_of_short _ sp cal args h)
        | false => simp [check_expr, hv, hs, emittedDiags]

/-- C3 witness: a one-argument call emits nothing. -/
theorem fewer_than_three_args_not_flagged_witness :
    emittedDiags (check_expr (Expr.call 50
      (Expr.pathTypeRel 51 ⟨52, TypeClass.dynamicArray⟩ "from_raw_parts")
      [Expr.ident 53 0 "ptr"])) = [] :=
  fewer_than_three_args_not_flagged 50
    (Expr.pathTypeRel 51 ⟨52, TypeClass.dynamicArray⟩ "from_raw_parts")
    [Expr.ident 53 0 "ptr"] (by decide)

/-- C4 counterexample: on a two-argument `Vec::from_raw_parts` call the code
does reach the comparison with fewer than three arguments: in the total
embedding the argument lookup takes the `none` branch and the invocation
ends in the out-of-bounds panic. -/
theorem two_arg_call_reaches_oob :
    matchFromRawParts is_type_diagnostic_item
      (Expr.call 20 (Expr.pathTypeRel 21 ⟨22, TypeClass.dynamicArray⟩ "from_raw_parts")
        [Expr.ident 23 0 "ptr", Expr.ident 24 1 "len"]) = none ∧
    check_expr
      (Expr.call 20 (Expr.pathTypeRel 21 ⟨22, TypeClass.dynamicArray⟩ "from_raw_parts")
        [Expr.ident 23 0 "ptr", Expr.ident 24 1 "len"]) =
      Except.error indexOutOfBoundsMsg :=
  ⟨rfl, rfl⟩

/-- On a well-typed input neither branch condition can end in the
out-of-bounds `none` outcome. -/
theorem matchFromRawParts_ne_none_of_wellTyped (e : Expr) (h : wellTypedArity e) :
    matchFromRawParts is_type_diagnostic_item e ≠ none ∧
      matchFromRawParts is_type_lang_item e ≠ none := by
  constructor
  · intro hm
    obtain ⟨sp, psp, ty, fn, args, he, hty, hfn, hshort⟩ :=
      matchFromRawParts_none_inv is_type_diagnostic_item e hm
    have h3 := h sp psp ty fn args he (Or.inl hty) hfn
    omega
  · intro hm
    obtain ⟨sp, psp, ty, fn, args, he, hty, hfn, hshort⟩ :=
      matchFromRawParts_none_inv is_type_lang_item e hm
    have h3 := h sp psp ty fn args he (Or.inr hty) hfn
    omega

/-- C4 (amended): on every input satisfying the host's typing guarantee
(a resolved `from_raw_parts` call on a recognized type has exactly three
arguments), the argument lookups stay in bounds: the `none` branch of the
total embedding is unreachable for both branch conditions. -/
theorem well_typed_no_index_oob (e : Expr) (h : wellTypedArity e) :
    matchFromRawParts is_type_diagnostic_item e ≠ none ∧
      matchFromRawParts is_type_lang_item e ≠ none :=
  matchFromRawParts_ne_none_of_wellTyped e h

/-- C4 witness: a proper three-argument `Vec::from_raw_parts` call is
well-typed and neither branch condition panics on it. -/
theorem well_typed_no_index_oob_witness :
    matchFromRawParts is_type_diagnostic_item
      (Expr.call 60 (Expr.pathTypeRel 61 ⟨62, TypeClass.dynamicArray⟩ from_raw_parts_name)
        [Expr.ident 63 0 "ptr", Expr.ident 64 1 "len", Expr.ident 65 2 "cap"]) ≠ none ∧
    matchFromRawParts is_type_lang_item
      (Expr.call 60 (Expr.pathTypeRel 61 ⟨62, TypeClass.dynamicArray⟩ from_raw_parts_name)
        [Expr.ident 63 0 "ptr", Expr.ident 64 1 "len", Expr.ident 65 2 "cap"]) ≠ none :=
  well_typed_no_index_oob _ (by
    intro sp psp ty fn args he hty hfn
    injection he with h1 h2 h3
    subst h3
    rfl)

/-- C7 counterexample: on a one-argument `String::from_raw_parts` call the
invocation does not run to a silent no-match: the argument lookup goes out
of bounds and the embedded invocation fails with the index panic. -/
theorem one_arg_string_call_panics :
    check_expr (Expr.call 30 (Expr.pathTypeRel 31 ⟨32, TypeClass.textBuffer⟩ "from_raw_parts")
      [Expr.ident 33 0 "ptr"]) = Except.error indexOutOfBoundsMsg :=
  rfl

/-- C7 (amended): on every input satisfying the host's typing guarantee the
invocation never fails: it returns normally, either with exactly one
diagnostic or with none. -/
theorem well_typed_check_no_failure (e : Expr) (h : wellTypedArity e) :
    (∃ d : Diagnostic, check_expr e = Except.ok [d]) ∨ check_expr e = Except.ok [] := by
  have hnn := matchFromRawParts_ne_none_of_wellTyped e h
  cases hv : matchFromRawParts is_type_diagnostic_item e with
  | none => exact absurd hv hnn.1
  | some c =>
    cases c with
    | true => exact Or.inl ⟨⟨e.span, vecMessage, vecHelp⟩, by simp [check_expr, hv]⟩
    | false =>
      cases hs : matchFromRawParts is_type_lang_item e with
      | none => exact absurd hs hnn.2
      | some c2 =>
        cases c2 with
        | true => exact Or.inl ⟨⟨e.span, stringMessage, stringHelp⟩, by simp [check_expr, hv, hs]⟩
        | false => exact Or.inr (by simp [check_expr, hv, hs])

/-- C7 witness: a proper three-argument `String::from_raw_parts` call is
well-typed, and on it the invocation returns normally. -/
theorem well_typed_check_no_failure_witness :
    (∃ d : Diagnostic,
      check_expr (Expr.call 34 (Expr.pathTypeRel 35 ⟨36, TypeClass.textBuffer⟩
          from_raw_parts_name)
        [Expr.ident 37 0 "ptr", Expr.ident 38 1 "n", Expr.ident 39 1 "n"]) =
        Except.ok [d]) ∨
    check_expr (Expr.call 34 (Expr.pathTypeRel 35 ⟨36, TypeClass.textBuffer⟩
        from_raw_parts_name)
      [Expr.ident 37 0 "ptr", Expr.ident 38 1 "n", Expr.ident 39 1 "n"]) =
      Except.ok [] :=
  well_typed_check_no_failure _ (by
    intro sp psp ty fn args he hty hfn
    injection he with h1 h2 h3
    subst h3
    rfl)

/-- C6: every invocation emits at most one diagnostic, and on a full match
exactly one diagnostic is emitted, located at the span of the whole call
expression, with the message naming the constructor that matched. -/
theorem check_expr_at_most_one_diagnostic :
    (∀ e : Expr, (emittedDiags (check_expr e)).length ≤ 1) ∧
    (∀ (sp psp : Nat) (ty : Ty) (fn : String) (p len cap : Expr),
      fn = from_raw_parts_name → eq_expr len cap = true →
      ((is_type_diagnostic_item ty = true →
        check_expr (Expr.call sp (Expr.pathTypeRel psp ty fn) [p, len, cap]) =
          Except.ok [⟨(Expr.call sp (Expr.pathTypeRel psp ty fn) [p, len, cap]).span,
            vecMessage, vecHelp⟩]) ∧
       (is_type_lang_item ty = true →
        check_expr (Expr.call sp (Expr.pathTypeRel psp ty fn) [p, len, cap]) =
          Except.ok [⟨(Expr.call sp (Expr.pathTypeRel psp ty fn) [p, len, cap]).span,
            stringMessage, stringHelp⟩]))) := by
  constructor
  · intro e
    cases hv : matchFromRawParts is_type_diagnostic_item e with
    | none => simp [check_expr, hv, emittedDiags]
    | some c =>
      cases c with
      | true => simp [check_expr, hv, emittedDiags]
      | false =>
        cases hs : matchFromRawParts is_type_lang_item e with
        | none => simp [check_expr, hv, hs, emittedDiags]
        | some c2 =>
          cases c2 <;> simp [check_expr, hv, hs, emittedDiags]
  · intro sp psp ty fn p len cap hfn heq
    subst hfn
    obtain ⟨tid, tc⟩ := ty
    constructor
    · intro hv
      simp only [is_type_diagnostic_item, decide_eq_true_eq] at hv
      subst hv
      simp [check_expr, matchFromRawParts, is_type_diagnostic_item, heq, Expr.span]
    · intro hs
      simp only [is_type_lang_item, decide_eq_true_eq] at hs
      subst hs
      simp [check_expr, matchFromRawParts, is_type_diagnostic_item, is_type_lang_item, heq,
        Expr.span]

/-- C6 witness: a matching `Vec::from_raw_parts(p, n, n)` call yields
exactly the `Vec` diagnostic at the call expression's span. -/
theorem check_expr_at_most_one_diagnostic_witness :
    check_expr (Expr.call 70 (Expr.pathTypeRel 71 ⟨72, TypeClass.dynamicArray⟩
        from_raw_parts_name)
      [Expr.ident 73 0 "p", Expr.ident 74 1 "n", Expr.ident 75 1 "n"]) =
      Except.ok [⟨(Expr.call 70 (Expr.pathTypeRel 71 ⟨72, TypeClass.dynamicArray⟩
          from_raw_parts_name)
        [Expr.ident 73 0 "p", Expr.ident 74 1 "n", Expr.ident 75 1 "n"]).span,
        vecMessage, vecHelp⟩] :=
  (check_expr_at_most_one_diagnostic.2 70 71 ⟨72, TypeClass.dynamicArray⟩
    from_raw_parts_name (Expr.ident 73 0 "p") (Expr.ident 74 1 "n") (Expr.ident 75 1 "n")
    rfl rfl).1 rfl

/-- C8 counterexample: the comparator is not reflexive on the whole
expression language: an unrecognized expression kind is judged not equal
to itself, as the conservative default demands. -/
theorem eq_expr_not_reflexive_on_unrecognized :
    eq_expr (Expr.unrecognized 40 7) (Expr.unrecognized 40 7) = false :=
  rfl

/-- C8 witness: a recognized arithmetic expression over an identifier and a
literal is judged equal to itself. -/
theorem eq_expr_refl_on_recognized_witness :
    recognizedExpr (Expr.binary 80 BinOp.add (Expr.ident 81 5 "n")
      (Expr.lit 82 (Lit.int 1))) = true ∧
    eq_expr (Expr.binary 80 BinOp.add (Expr.ident 81 5 "n") (Expr.lit 82 (Lit.int 1)))
      (Expr.binary 80 BinOp.add (Expr.ident 81 5 "n") (Expr.lit 82 (Lit.int 1))) = true :=
  ⟨rfl, eq_expr_refl_on_recognized _ rfl⟩

/-- Running the pass over a list of nodes returns the pass unchanged and
maps the pure `check_expr` over the nodes. -/
theorem runPass_eq_map (pass : SameLengthAndCapacity) (es : List Expr) :
    runPass pass es = (pass, es.map check_expr) := by
  induction es with
  | nil => rfl
  | cons e es ih => simp [runPass, checkExprPass, ih]

/-- C10: the pass is pure and stateless: an invocation returns the pass
value unchanged, its outcome does not depend on the pass value, and the
outcome observed for a node in a traversal does not depend on which nodes
were visited before or after it. -/
theorem check_pass_stateless :
    (∀ (pass : SameLengthAndCapacity) (e : Expr), (checkExprPass pass e).1 = pass) ∧
    (∀ (pass1 pass2 : SameLengthAndCapacity) (e : Expr),
      (checkExprPass pass1 e).2 = (checkExprPass pass2 e).2) ∧
    (∀ (pass : SameLengthAndCapacity) (pre post : List Expr) (e : Expr),
      (runPass pass (pre ++ e :: post)).2 =
        (runPass pass pre).2 ++ (checkExprPass pass e).2 :: (runPass pass post).2) := by
  refine ⟨fun _ _ => rfl, fun _ _ _ => rfl, fun pass pre post e => ?_⟩
  simp [runPass_eq_map, checkExprPass]
